import Mathlib

/-!
Verification of the YouTube download service
(`src/features/youtube-download/youtube-download.service.ts`).

The service shells out to the external `yt-dlp` tool.  This file gives a
shallow embedding of the service's pure logic (command builders, the
file-size unit parser, the progress-line parser) and of its stateful
progressive-download supervisor (modelled as a step function over an
explicit stream-controller state, driven by a list of observed process
events), and proves properties about them.

Modelling conventions:
* JavaScript numbers are modelled as exact rationals (`ℚ`); every numeric
  literal appearing in the relevant code paths is decimal, and the
  properties proved do not depend on binary floating-point rounding.
* Strings are Lean `String`s; the handful of JS string operations used by
  the service (`includes`, `split('\n')`, `trim`, `substring`,
  `toLowerCase`) are re-implemented below on `List Char` so that all
  definitions reduce in the kernel.
* The two regular expressions of the service are embedded as explicit
  leftmost-match scanners with the same backtracking behaviour.
-/

/- The Batteries `Rat` operations are `@[irreducible]`, which blocks
`decide` on concrete rational computations; restore the default
reducibility for this file (their definitions are still the library
ones). -/
attribute [local semireducible] Rat.mul Rat.add Rat.sub Rat.inv Rat.ofScientific

set_option maxRecDepth 100000

/-! ### Basic string helpers (models of the JS string operations used) -/

/-- Model of `a.startsWith(b)` / prefix test on character lists. -/
def listStarts : List Char → List Char → Bool
  | _, [] => true
  | [], _ :: _ => false
  | a :: as, b :: bs => a = b && listStarts as bs

/-- Model of JS `hay.includes(needle)` on character lists. -/
def listContainsSub (hay needle : List Char) : Bool :=
  match hay with
  | [] => listStarts [] needle
  | c :: t => listStarts (c :: t) needle || listContainsSub t needle

/-- Model of JS `hay.includes(needle)`. -/
def containsSub (hay needle : String) : Bool :=
  listContainsSub hay.data needle.data

/-- Prefix test on strings, via `listStarts`. -/
def strStarts (s p : String) : Bool :=
  listStarts s.data p.data

/-- Model of JS `s.split('\n')` (helper, accumulating the current line
reversed). -/
def splitLinesGo : List Char → List Char → List String
  | [], cur => [String.mk cur.reverse]
  | c :: t, cur =>
    if c = '\n' then String.mk cur.reverse :: splitLinesGo t []
    else splitLinesGo t (c :: cur)

/-- Model of JS `s.split('\n')`. -/
def splitLines (s : String) : List String := splitLinesGo s.data []

/-- Model of JS `s.trim()` (strip leading/trailing whitespace). -/
def trimStr (s : String) : String :=
  String.mk (((s.data.dropWhile Char.isWhitespace).reverse.dropWhile
    Char.isWhitespace).reverse)

/-- Model of JS `s.toLowerCase()` (ASCII case folding suffices for the
substrings tested by the service). -/
def lowerStr (s : String) : String := String.mk (s.data.map Char.toLower)

/-- Model of JS `s.substring(0, 100)`. -/
def take100 (s : String) : String := String.mk (s.data.take 100)

/-! ### Decimal number parsing (model of `parseFloat` on the captures of
the service's regular expressions, which always have the shape
`\d+\.?\d*`, so `parseFloat` is exact decimal reading) -/

/-- Digits to a natural number (most significant first). -/
def digitsToNat (cs : List Char) : Nat :=
  cs.foldl (fun n c => 10 * n + (c.toNat - 48)) 0

/-- Exact value of a captured `\d+\.?\d*` numeral. -/
def parseDecimal (cs : List Char) : ℚ :=
  let intPart := cs.takeWhile Char.isDigit
  let rest := cs.dropWhile Char.isDigit
  let frac := match rest with
    | '.' :: r => r.takeWhile Char.isDigit
    | _ => []
  (digitsToNat intPart : ℚ) + (digitsToNat frac : ℚ) / ((10 : ℚ) ^ frac.length)

/-! ### The service's size-token regular expressions

`parseFileSize` uses `/(\d+\.?\d*)([KMGT]?i?B)/` (the `i` optional) and
`parseProgressOutput` uses `/(\d+\.?\d*[KMGT]?iB)/g` (the `i` required).
Both are embedded as leftmost-match scanners; `requireI` selects the
variant. -/

/-- Match the `i?B` tail of a unit (`iB` forced when `requireI`). -/
def matchIB (requireI : Bool) : List Char → Option (List Char × List Char)
  | 'i' :: 'B' :: rest => some (['i', 'B'], rest)
  | 'B' :: rest => if requireI then none else some (['B'], rest)
  | _ => none

/-- Match a whole unit `[KMGT]?i?B` (greedy, with the regex's
backtracking over the optional `[KMGT]`). -/
def matchUnit (requireI : Bool) (cs : List Char) : Option (List Char × List Char) :=
  match cs with
  | c :: rest =>
    if c = 'K' ∨ c = 'M' ∨ c = 'G' ∨ c = 'T' then
      match matchIB requireI rest with
      | some (u, r) => some (c :: u, r)
      | none => matchIB requireI cs
    else matchIB requireI cs
  | [] => none

/-- Match `(\d+\.?\d*)([KMGT]?i?B)` anchored at the head of `cs`,
returning `(number capture, unit capture, rest)`.  The optional `.` is
taken greedily and given back if the unit then fails, exactly as the
regex engine backtracks. -/
def matchSizeAt (requireI : Bool) (cs : List Char) : Option (List Char × List Char × List Char) :=
  match cs with
  | c :: _ =>
    if c.isDigit then
      let intD := cs.takeWhile Char.isDigit
      let r1 := cs.dropWhile Char.isDigit
      if r1.head? = some '.' then
        let r2 := r1.tail
        let frac := r2.takeWhile Char.isDigit
        let r3 := r2.dropWhile Char.isDigit
        match matchUnit requireI r3 with
        | some (u, rest) => some (intD ++ '.' :: frac, u, rest)
        | none =>
          match matchUnit requireI r1 with
          | some (u, rest) => some (intD, u, rest)
          | none => none
      else
        match matchUnit requireI r1 with
        | some (u, rest) => some (intD, u, rest)
        | none => none
    else none
  | [] => none

/-- Leftmost match of the size regex (the JS engine retries the anchored
match at each successive position). -/
def searchSize (requireI : Bool) : List Char → Option (List Char × List Char × List Char)
  | [] => none
  | c :: rest =>
    match matchSizeAt requireI (c :: rest) with
    | some m => some m
    | none => searchSize requireI rest

/-- All matches of the global regex `/(\d+\.?\d*[KMGT]?iB)/g`, as the
matched token strings (fuel-indexed helper; each match consumes at least
one character). -/
def findAllSizesGo : Nat → List Char → List String
  | 0, _ => []
  | fuel + 1, cs =>
    match searchSize true cs with
    | some (n, u, rest) => String.mk (n ++ u) :: findAllSizesGo fuel rest
    | none => []

/-- All tokens matched by `line.match(/(\d+\.?\d*[KMGT]?iB)/g)`. -/
def findAllSizes (cs : List Char) : List String := findAllSizesGo cs.length cs

/-! ### `parseFileSize` (service lines 658-678) -/

/-- The `multipliers` table of `parseFileSize`, verbatim. -/
def multipliers : List (String × ℚ) :=
  [("B", 1), ("KiB", 1024), ("MiB", 1024 * 1024), ("GiB", 1024 * 1024 * 1024),
   ("TiB", 1024 * 1024 * 1024 * 1024),
   ("KB", 1000), ("MB", 1000 * 1000), ("GB", 1000 * 1000 * 1000),
   ("TB", 1000 * 1000 * 1000 * 1000)]

/-- `parseFileSize(sizeStr)`: leftmost match of
`/(\d+\.?\d*)([KMGT]?i?B)/`; no match yields `0`; otherwise
`parseFloat(number) * (multipliers[unit] || 1)`. -/
def parseFileSize (s : String) : ℚ :=
  match searchSize false s.data with
  | none => 0
  | some (num, unit, _) => parseDecimal num * ((multipliers.lookup (String.mk unit)).getD 1)

/-! ### The percentage regex `/(\d+\.?\d*)%/` of `parseProgressOutput` -/

/-- Match `(\d+\.?\d*)%` anchored at the head, returning the number
capture. -/
def matchPctAt (cs : List Char) : Option (List Char) :=
  match cs with
  | c :: _ =>
    if c.isDigit then
      let intD := cs.takeWhile Char.isDigit
      let r1 := cs.dropWhile Char.isDigit
      match r1 with
      | '.' :: r2 =>
        let frac := r2.takeWhile Char.isDigit
        let r3 := r2.dropWhile Char.isDigit
        match r3 with
        | '%' :: _ => some (intD ++ '.' :: frac)
        | _ => none
      | '%' :: _ => some intD
      | _ => none
    else none
  | [] => none

/-- Leftmost match of `/(\d+\.?\d*)%/`. -/
def searchPct : List Char → Option (List Char)
  | [] => none
  | c :: rest =>
    match matchPctAt (c :: rest) with
    | some n => some n
    | none => searchPct rest

/-- Model of JS `x.toFixed(1)` for the non-negative exact decimals
produced by `parseDecimal` (round half away from zero to one decimal). -/
def jsToFixed1 (q : ℚ) : String :=
  let n : ℤ := ⌊q * 10 + 1 / 2⌋
  toString (n / 10) ++ "." ++ toString (n % 10)

/-! ### Progress events (`ProgressUpdateDto`)

The DTO union is `'start' | 'progress' | 'processing' | 'complete' |
'error'`; the service's unreachable multi-strategy routine additionally
tries to emit `'info'` (not in the DTO), so the model includes it to be
able to state its absence. -/

inductive EType
  | start
  | progress
  | processing
  | info
  | error
  | complete
deriving DecidableEq, BEq, Repr

/-- A progress update as serialised onto the SSE stream. -/
structure ProgressUpdate where
  type : EType
  message : String
  progress : Option ℚ := none
  downloadedSize : Option ℚ := none
  totalSize : Option ℚ := none
  fileSize : Option Nat := none
  downloadUrl : Option String := none
deriving DecidableEq, BEq, Repr

/-! ### `parseProgressOutput` (service lines 556-594) -/

/-- The `(downloadedSize, totalSize)` pair of a progress line: the first
two `[KMGT]?iB` tokens when at least two are present, else `(0, 0)`. -/
def lineSizes (line : String) : ℚ × ℚ :=
  match findAllSizes line.data with
  | t0 :: t1 :: _ => (parseFileSize t0, parseFileSize t1)
  | _ => ((0 : ℚ), (0 : ℚ))

/-- Events produced for one line of process stdout: a `progress` event
when the line contains `[download]` and `%` and the percentage regex
matches (with sizes via `lineSizes`), and a `processing` event when the
line contains `[ffmpeg]` or `Merging`. -/
def lineEvents (line : String) : List ProgressUpdate :=
  let dl : List ProgressUpdate :=
    if containsSub line "[download]" && containsSub line "%" then
      match searchPct line.data with
      | some num =>
        let p := parseDecimal num
        [{ type := .progress, progress := some (min p 100),
           downloadedSize := some (lineSizes line).1, totalSize := some (lineSizes line).2,
           message := "Downloading... " ++ jsToFixed1 p ++ "%" }]
      | none => []
    else []
  let post : List ProgressUpdate :=
    if containsSub line "[ffmpeg]" || containsSub line "Merging" then
      [{ type := .processing, progress := some 95, message := "Processing video..." }]
    else []
  dl ++ post

/-- `parseProgressOutput(output)`: split the chunk on newlines and emit
the events of each line in order. -/
def parseProgressOutput (output : String) : List ProgressUpdate :=
  (splitLines output).flatMap lineEvents

/-! ### The progressive-download supervisor
(`createProgressiveDownloadStream` → `handleProgressiveDownload`,
service lines 130-139 and 238-320)

The handler wires a spawned process to a `ReadableStream` controller.
We model the controller state plus the handler's `controllerClosed`
flag explicitly, and drive the handler with a list of observations
(`stdout` chunk / `stderr` chunk / process `error` / process `close`),
which is the order the event loop delivers them (no stdio data arrives
after `close`). -/

/-- Stream/controller state of one `handleProgressiveDownload`
invocation: the events enqueued so far, the handler's
`controllerClosed` flag, and whether `controller.close()` has run
(enqueueing after that throws, which `safeEnqueue` catches). -/
structure SupState where
  events : List ProgressUpdate
  controllerClosed : Bool
  streamClosed : Bool
deriving DecidableEq, BEq, Repr

/-- `safeEnqueue(data)` (service lines 258-268): skip when the flag is
set; otherwise try to enqueue, and on the throw of a closed controller
set the flag and drop the event. -/
def safeEnqueue (s : SupState) (e : ProgressUpdate) : SupState :=
  if s.controllerClosed then s
  else if s.streamClosed then { s with controllerClosed := true }
  else { s with events := s.events ++ [e] }

/-- `try { controller.close() } catch { ... }`: closing an already
closed controller throws and is swallowed. -/
def closeController (s : SupState) : SupState := { s with streamClosed := true }

/-- Stderr fatal-error signature (service line 289):
`errorOutput.toLowerCase().includes('error') &&
!errorOutput.includes('warning')`. -/
def fatalSignature (s : String) : Bool :=
  containsSub (lowerStr s) "error" && !containsSub s "warning"

/-- JS rendering of the `close` exit code (`null` when killed). -/
def intCodeStr : Option Int → String
  | none => "null"
  | some i => toString i

/-- UTF-8 bytes of a character. -/
def utf8Bytes (c : Char) : List Nat :=
  let n := c.toNat
  if n < 128 then [n]
  else if n < 2048 then [192 + n / 64, 128 + n % 64]
  else if n < 65536 then [224 + n / 4096, 128 + (n / 64) % 64, 128 + n % 64]
  else [240 + n / 262144, 128 + (n / 4096) % 64, 128 + (n / 64) % 64, 128 + n % 64]

/-- Uppercase hexadecimal digit. -/
def hexDigit (n : Nat) : Char :=
  if n < 10 then Char.ofNat (48 + n) else Char.ofNat (55 + n)

/-- Bytes kept verbatim by `encodeURIComponent`. -/
def isUnreservedByte (b : Nat) : Bool :=
  (65 ≤ b && b ≤ 90) || (97 ≤ b && b ≤ 122) || (48 ≤ b && b ≤ 57) ||
  b == 45 || b == 95 || b == 46 || b == 33 || b == 126 || b == 42 ||
  b == 39 || b == 40 || b == 41

/-- Model of JS `encodeURIComponent`. -/
def encodeURIComponent (s : String) : String :=
  String.mk ((s.data.flatMap utf8Bytes).flatMap fun b =>
    if isUnreservedByte b then [Char.ofNat b] else ['%', hexDigit (b / 16), hexDigit (b % 16)])

/-- The `downloadUrl` carried by a `complete` event (service line 623). -/
def mkDownloadUrl (url quality : String) (audioOnly : Bool) : String :=
  "/api/youtube-download?url=" ++ encodeURIComponent url ++ "&quality=" ++ quality ++
    "&audioOnly=" ++ (if audioOnly then "true" else "false")

/-- `handleProgressComplete` (service lines 601-651): on exit code 0
with the output file present, emit `complete` (with size and re-request
URL) and clean up; on exit 0 with the file missing, the thrown
`Downloaded file not found` is caught and a terminal
`File processing failed` error is emitted; on a non-zero (or null) code
emit the exit-code error.  In all cases the controller is then closed. -/
def handleProgressComplete (code : Option Int) (fileExists : Bool) (fileSize : Nat)
    (url quality : String) (audioOnly : Bool) (s : SupState) : SupState :=
  let s1 :=
    if code = some 0 then
      if fileExists then
        safeEnqueue s
          { type := .complete, progress := some 100, fileSize := some fileSize,
            downloadUrl := some (mkDownloadUrl url quality audioOnly),
            message := "Download completed!" }
      else
        safeEnqueue s { type := .error, message := "File processing failed" }
    else
      safeEnqueue s { type := .error, message := "Download failed with exit code " ++ intCodeStr code }
  closeController s1

/-- One observation delivered by the event loop to the handler's
callbacks. -/
inductive Obs
  | stdout (chunk : String)
  | stderr (chunk : String)
  | procError (msg : String)
  | close (code : Option Int)
deriving DecidableEq, Repr

/-- One callback firing of `handleProgressiveDownload` (service lines
278-319): stdout chunks go through `parseProgressOutput`; a stderr chunk
matching the fatal signature emits an `error` event (and nothing else —
this handler never retries another strategy); a process error emits an
`error` event and closes the controller; `close` runs
`handleProgressComplete` and then sets the flag. -/
def stepObs (fileExists : Bool) (fileSize : Nat) (url quality : String) (audioOnly : Bool)
    (s : SupState) : Obs → SupState
  | .stdout chunk => (parseProgressOutput chunk).foldl safeEnqueue s
  | .stderr chunk =>
    if fatalSignature chunk then
      safeEnqueue s { type := .error, message := "Download error: " ++ take100 chunk }
    else s
  | .procError msg =>
    let s1 := safeEnqueue s { type := .error, message := "Process failed: " ++ msg }
    if s1.controllerClosed then s1
    else { s1 with streamClosed := true, controllerClosed := true }
  | .close code =>
    let s1 := handleProgressComplete code fileExists fileSize url quality audioOnly s
    { s1 with controllerClosed := true }

/-- Full run of `handleProgressiveDownload`: the synchronous `start`
event, then the observations in delivery order. -/
def runProgressive (url quality : String) (audioOnly fileExists : Bool) (fileSize : Nat)
    (obs : List Obs) : SupState :=
  let s0 : SupState := { events := [], controllerClosed := false, streamClosed := false }
  let s1 := safeEnqueue s0
    { type := .start, progress := some 0,
      message := "Starting download with enhanced anti-detection..." }
  obs.foldl (stepObs fileExists fileSize url quality audioOnly) s1

/-! ### Requests and defaults -/

/-- `DownloadRequestDto` as it reaches the service: `url` required,
`quality` and `audioOnly` optional. -/
structure DownloadRequest where
  url : String
  quality : Option String
  audioOnly : Option Bool
deriving DecidableEq, Repr

/-- DTO-level default for `quality` (`quality?: string = '720'` in
`download-request.dto.ts`). -/
def dtoQualityDefault : String := "720"

/-- DTO-level default for `audioOnly` (`audioOnly?: boolean = false`). -/
def dtoAudioOnlyDefault : Bool := false

/-- The DTO layer materialises its defaults before the service sees the
request. -/
def applyDtoDefaults (r : DownloadRequest) : DownloadRequest :=
  { url := r.url, quality := some (r.quality.getD dtoQualityDefault),
    audioOnly := some (r.audioOnly.getD dtoAudioOnlyDefault) }

/-- `createProgressiveDownloadStream` (service lines 130-139):
destructure with service-side defaults `quality = '720'`,
`audioOnly = false`, then run the handler; the stream's content is the
sequence of enqueued events. -/
def createProgressiveDownloadStream (r : DownloadRequest) (fileExists : Bool) (fileSize : Nat)
    (obs : List Obs) : List ProgressUpdate :=
  (runProgressive r.url (r.quality.getD "720") (r.audioOnly.getD false)
    fileExists fileSize obs).events

/-! ### Command builders (service lines 146-181 and 514-549)

`buildDownloadCommand` / `buildProgressCommand` return a single string
that is handed to `child_process.exec`, i.e. parsed by a shell; the URL,
quality and temp path are spliced in by template interpolation. -/

/-- Model of JS `arr.join(' ')`. -/
def joinSpace : List String → String
  | [] => ""
  | [a] => a
  | a :: b :: rest => a ++ " " ++ joinSpace (b :: rest)

/-- The `baseOptions` array of `buildDownloadCommand`, verbatim. -/
def directBaseOptionsList : List String :=
  ["--no-check-certificate",
   "--user-agent \"Mozilla/5.0 (Windows NT 10.0; Win64; x64) AppleWebKit/537.36 (KHTML, like Gecko) Chrome/120.0.0.0 Safari/537.36\"",
   "--referer \"https://www.youtube.com/\"",
   "--add-header \"Accept:text/html,application/xhtml+xml,application/xml;q=0.9,image/avif,image/webp,image/apng,*/*;q=0.8\"",
   "--add-header \"Accept-Language:en-US,en;q=0.9\"",
   "--add-header \"Accept-Encoding:gzip, deflate, br\"",
   "--add-header \"DNT:1\"",
   "--add-header \"Connection:keep-alive\"",
   "--add-header \"Upgrade-Insecure-Requests:1\"",
   "--add-header \"Sec-Fetch-Dest:document\"",
   "--add-header \"Sec-Fetch-Mode:navigate\"",
   "--add-header \"Sec-Fetch-Site:none\"",
   "--add-header \"Sec-Fetch-User:?1\"",
   "--add-header \"Cache-Control:max-age=0\"",
   "--extractor-retries 10",
   "--fragment-retries 10",
   "--retry-sleep 3",
   "--socket-timeout 60",
   "--sleep-interval 1",
   "--max-sleep-interval 5",
   "--extractor-args \"youtube:player_client=web,mweb,android,ios;comment_sort=top;max_comments=0\"",
   "--geo-bypass",
   "--no-warnings"]

/-- `baseOptions.join(' ')` for the buffered-mode builder. -/
def directBaseOptions : String := joinSpace directBaseOptionsList

/-- `buildDownloadCommand(url, quality, audioOnly, tempFile)`. -/
def buildDownloadCommand (url quality : String) (audioOnly : Bool) (tempFile : String) : String :=
  if audioOnly then
    "yt-dlp " ++ directBaseOptions ++
      " -f \"bestaudio/best\" --extract-audio --audio-format mp3 --audio-quality 0 -o \"" ++
      tempFile ++ ".%(ext)s\" \"" ++ url ++ "\""
  else
    "yt-dlp " ++ directBaseOptions ++ " -f \"bestvideo[height<=" ++ quality ++
      "][ext=mp4]+bestaudio[ext=m4a]/bestvideo[height<=" ++ quality ++
      "]+bestaudio/best[height<=" ++ quality ++
      "]\" --merge-output-format mp4 -o \"" ++ tempFile ++ ".%(ext)s\" \"" ++ url ++ "\""

/-- The `baseOptions` array of `buildProgressCommand`, verbatim (the
direct options plus `--progress --newline`). -/
def progressBaseOptionsList : List String :=
  ["--no-check-certificate",
   "--user-agent \"Mozilla/5.0 (Windows NT 10.0; Win64; x64) AppleWebKit/537.36 (KHTML, like Gecko) Chrome/120.0.0.0 Safari/537.36\"",
   "--referer \"https://www.youtube.com/\"",
   "--add-header \"Accept:text/html,application/xhtml+xml,application/xml;q=0.9,image/avif,image/webp,image/apng,*/*;q=0.8\"",
   "--add-header \"Accept-Language:en-US,en;q=0.9\"",
   "--add-header \"Accept-Encoding:gzip, deflate, br\"",
   "--add-header \"DNT:1\"",
   "--add-header \"Connection:keep-alive\"",
   "--add-header \"Upgrade-Insecure-Requests:1\"",
   "--add-header \"Sec-Fetch-Dest:document\"",
   "--add-header \"Sec-Fetch-Mode:navigate\"",
   "--add-header \"Sec-Fetch-Site:none\"",
   "--add-header \"Sec-Fetch-User:?1\"",
   "--add-header \"Cache-Control:max-age=0\"",
   "--extractor-retries 10",
   "--fragment-retries 10",
   "--retry-sleep 3",
   "--socket-timeout 60",
   "--sleep-interval 1",
   "--max-sleep-interval 5",
   "--extractor-args \"youtube:player_client=web,mweb,android,ios;comment_sort=top;max_comments=0\"",
   "--geo-bypass",
   "--progress",
   "--newline",
   "--no-warnings"]

/-- `baseOptions.join(' ')` for the progressive-mode builder. -/
def progressBaseOptions : String := joinSpace progressBaseOptionsList

/-- `buildProgressCommand(url, quality, audioOnly, tempFile)`. -/
def buildProgressCommand (url quality : String) (audioOnly : Bool) (tempFile : String) : String :=
  if audioOnly then
    "yt-dlp " ++ progressBaseOptions ++
      " -f \"bestaudio/best\" --extract-audio --audio-format mp3 --audio-quality 0 -o \"" ++
      tempFile ++ ".%(ext)s\" \"" ++ url ++ "\""
  else
    "yt-dlp " ++ progressBaseOptions ++ " -f \"bestvideo[height<=" ++ quality ++
      "][ext=mp4]+bestaudio[ext=m4a]/bestvideo[height<=" ++ quality ++
      "]+bestaudio/best[height<=" ++ quality ++
      "]\" --merge-output-format mp4 -o \"" ++ tempFile ++ ".%(ext)s\" \"" ++ url ++ "\""

/-! ### A model of POSIX shell word splitting

`child_process.exec` hands the command string to `/bin/sh`.  For the
command strings at hand (no backslashes or single quotes in the fixed
parts) word splitting is: split on spaces outside double quotes; a
double quote toggles quoting and is removed. -/

/-- One character of shell word splitting over state
`(inQuotes, wordStarted, currentWordReversed, completedWords)`. -/
def shellStep : Bool × Bool × List Char × List String → Char → Bool × Bool × List Char × List String
  | (inQ, started, cur, acc), c =>
    if c = '"' then (!inQ, true, cur, acc)
    else if c = ' ' ∧ inQ = false then
      (inQ, false, [], acc ++ if started then [String.mk cur.reverse] else [])
    else (inQ, true, c :: cur, acc)

/-- Split a command string into the words a POSIX shell would pass as
the argument vector. -/
def shellSplit (s : String) : List String :=
  match s.data.foldl shellStep (false, false, [], []) with
  | (_, started, cur, acc) => acc ++ if started then [String.mk cur.reverse] else []

/-! ### Buffered mode: `downloadVideo` and `getFallbackUrls`
(service lines 47-121 and 188-231) -/

/-- The `baseOptions` array of `getFallbackUrls`, verbatim. -/
def fallbackBaseOptionsList : List String :=
  ["--no-check-certificate",
   "--user-agent \"Mozilla/5.0 (Windows NT 10.0; Win64; x64) AppleWebKit/537.36 (KHTML, like Gecko) Chrome/120.0.0.0 Safari/537.36\"",
   "--referer \"https://www.youtube.com/\"",
   "--add-header \"Accept:text/html,application/xhtml+xml,application/xml;q=0.9,image/avif,image/webp,image/apng,*/*;q=0.8\"",
   "--add-header \"Accept-Language:en-US,en;q=0.9\"",
   "--add-header \"Sec-Fetch-Dest:document\"",
   "--add-header \"Sec-Fetch-Mode:navigate\"",
   "--add-header \"Sec-Fetch-Site:none\"",
   "--add-header \"Sec-Fetch-User:?1\"",
   "--extractor-retries 10",
   "--retry-sleep 3",
   "--socket-timeout 60",
   "--sleep-interval 2",
   "--max-sleep-interval 8",
   "--extractor-args \"youtube:player_client=web,mweb,android,ios;comment_sort=top;max_comments=0\"",
   "--geo-bypass",
   "--no-warnings"]

/-- `baseOptions.join(' ')` for the fallback URL extractor. -/
def fallbackBaseOptions : String := joinSpace fallbackBaseOptionsList

/-- The `-f` format expression used by `getFallbackUrls` (same quality
cap / audio flag as the failed direct attempt). -/
def fallbackFormat (quality : String) (audioOnly : Bool) : String :=
  if audioOnly then "bestaudio/best"
  else "bestvideo[height<=" ++ quality ++ "]+bestaudio/best[height<=" ++ quality ++ "]"

/-- The URL-resolve-only command of `getFallbackUrls` (service line
216). -/
def fallbackCommand (url quality : String) (audioOnly : Bool) : String :=
  "yt-dlp " ++ fallbackBaseOptions ++ " --get-url -f \"" ++ fallbackFormat quality audioOnly ++
    "\" \"" ++ url ++ "\""

/-- Successful-download metadata (`DownloadSuccessResponseDto`). -/
structure SuccessMeta where
  success : Bool
  message : String
  fileSize : Nat
  contentType : String
  filename : String
deriving DecidableEq, Repr

/-- `DownloadFallbackResponseDto`. -/
structure FallbackResp where
  success : Bool
  directDownload : Bool
  urls : List String
  message : String
  instruction : String
deriving DecidableEq, Repr

/-- `DownloadErrorResponseDto`. -/
structure ErrorResp where
  error : String
  details : String
  suggestion : String
deriving DecidableEq, Repr

/-- The three mutually exclusive outcomes `downloadVideo` returns. -/
inductive DownloadResult
  | success (buffer : List Nat) (metadata : SuccessMeta)
  | fallback (resp : FallbackResp)
  | error (resp : ErrorResp)
deriving DecidableEq, Repr

/-- Environment of one buffered-mode request: the outcome of
`execAsync(buildDownloadCommand(url, quality, audioOnly, tempFile))`
(`directExec`), the outcome of the `--get-url` invocation of
`getFallbackUrls` with the same quality/audio constraints
(`fallbackExec`; `.ok` carries its stdout, `.error` the failure
message), and the state of the temp file after the direct command. -/
structure BufferedEnv where
  directExec : Except String String
  fallbackExec : Except String String
  fileExists : Bool
  fileBytes : List Nat
  fileSize : Nat
  tempFile : String

/-- `getFallbackUrls(url, quality, audioOnly)` (service lines 188-231):
run the `--get-url` command (`fallbackCommand url quality audioOnly`,
whose outcome is `env.fallbackExec`); on success the URLs are the
non-empty lines of the trimmed stdout; on failure rethrow
`URL extraction failed`. -/
def getFallbackUrls (env : BufferedEnv) (url quality : String) (audioOnly : Bool) :
    Except String FallbackResp :=
  let _cmd := fallbackCommand url quality audioOnly
  match env.fallbackExec with
  | .ok stdout =>
    .ok { success := true, directDownload := false,
          urls := (splitLines (trimStr stdout)).filter (fun u => u.length > 0),
          message := "Direct download not available, use these URLs",
          instruction := if audioOnly then "Audio URL" else "Video URLs (may need merging)" }
  | .error m => .error ("URL extraction failed: " ++ m)

/-- `downloadVideo(downloadRequest)` (service lines 47-121): run the
direct command (`buildDownloadCommand`, whose outcome is
`env.directExec`); on success require the output file to exist and
return its bytes and metadata; any failure (including a missing file
after a zero exit) falls into the fallback path, which returns the URL
list or, if it also fails, the structured error carrying the original
failure message. -/
def downloadVideo (env : BufferedEnv) (r : DownloadRequest) : DownloadResult :=
  let quality := r.quality.getD "720"
  let audioOnly := r.audioOnly.getD false
  let _cmd := buildDownloadCommand r.url quality audioOnly env.tempFile
  let onFailure : String → DownloadResult := fun downloadErrMsg =>
    match getFallbackUrls env r.url quality audioOnly with
    | .ok resp => .fallback resp
    | .error _ =>
      .error { error := "Download failed", details := downloadErrMsg,
               suggestion := "Try a different quality or check if yt-dlp is installed and updated" }
  match env.directExec with
  | .ok _ =>
    if env.fileExists then
      .success env.fileBytes
        { success := true, message := "Download completed successfully",
          fileSize := env.fileSize,
          contentType := if audioOnly then "audio/mpeg" else "video/mp4",
          filename := "download_" ++ quality ++ (if audioOnly then "p_audio" else "p") ++
            "." ++ (if audioOnly then "mp3" else "mp4") }
    else onFailure "Downloaded file not found after successful command execution"
  | .error m => onFailure m

/-! ### `cleanupFile` (service lines 685-692) -/

/-- `cleanupFile(filePath)`: `unlink` inside `try`; the catch turns any
failure into a warning log.  The result is the log lines together with
the exception (if any) propagated to the caller. -/
def cleanupFile (unlinkOutcome : Except String Unit) (filePath : String) :
    Except String (List String) :=
  match unlinkOutcome with
  | .ok _ => .ok ["log: Cleaned up temporary file: " ++ filePath]
  | .error m => .ok ["warn: Failed to cleanup file " ++ filePath ++ ": " ++ m]

/-! ## General helper lemmas -/

/-- `takeWhile`/`dropWhile` over an append whose left part satisfies the
predicate and whose right part starts with a failing character. -/
theorem takeDropWhile_append (p : Char → Bool) (l r : List Char)
    (h : ∀ c ∈ l, p c = true) (h2 : ∀ c, r.head? = some c → p c = false) :
    (l ++ r).takeWhile p = l ∧ (l ++ r).dropWhile p = r := by
  induction l with
  | nil =>
    cases r with
    | nil => simp
    | cons c t =>
      have := h2 c rfl
      simp [List.takeWhile, List.dropWhile, this]
  | cons a l ih =>
    have ha : p a = true := h a (by simp)
    have ih' := ih (fun c hc => h c (by simp [hc]))
    simp [List.takeWhile, List.dropWhile, ha, ih'.1, ih'.2]

/-- Membership in `dropLast` implies membership with a successor. -/
theorem mem_of_mem_dropLast {α : Type} {l : List α} {e : α} (h : e ∈ l.dropLast) : e ∈ l := by
  induction l with
  | nil => simp at h
  | cons a t ih =>
    cases t with
    | nil => simp [List.dropLast] at h
    | cons b t' =>
      rw [List.dropLast_cons₂] at h
      rcases List.mem_cons.mp h with h | h
      · simp [h]
      · exact List.mem_cons_of_mem _ (ih h)

/-- An element of `pre ++ e :: post` with `post` non-empty lies in the
`dropLast`. -/
theorem mem_dropLast_of_not_last {α : Type} (pre : List α) (e : α) (post : List α)
    (h : post ≠ []) : e ∈ (pre ++ e :: post).dropLast := by
  induction pre with
  | nil =>
    cases post with
    | nil => exact absurd rfl h
    | cons b t => simp [List.dropLast_cons₂]
  | cons a t ih =>
    have hne : t ++ e :: post ≠ [] := by simp
    cases hx : t ++ e :: post with
    | nil => exact absurd hx hne
    | cons y ys =>
      simp only [List.cons_append, hx, List.dropLast_cons₂]
      rw [← hx]
      exact List.mem_cons_of_mem _ ih

/-! ## C4 — the file-size unit parser -/

/-- Reduction of `matchSizeAt` on a well-formed token `number ++ unit`
(both the undotted and the dotted number shapes). -/
theorem matchSizeAt_token (requireI : Bool) (d : Char) (ds fs us : List Char)
    (hd0 : d.isDigit = true)
    (hd : ∀ c ∈ ds, c.isDigit = true) (hf : ∀ c ∈ fs, c.isDigit = true)
    (c0 : Char) (hc0 : us.head? = some c0) (hc0d : c0.isDigit = false) (hc0dot : c0 ≠ '.')
    (hu : matchUnit requireI us = some (us, [])) :
    matchSizeAt requireI (d :: ds ++ us) = some (d :: ds, us, []) ∧
    matchSizeAt requireI (d :: ds ++ '.' :: fs ++ us) = some (d :: ds ++ '.' :: fs, us, []) := by
  have hdall : ∀ c ∈ d :: ds, Char.isDigit c = true := by
    intro c hc
    rcases List.mem_cons.mp hc with h | h
    · exact h ▸ hd0
    · exact hd c h
  have husHead : ∀ c, us.head? = some c → Char.isDigit c = false := by
    intro c h
    rw [hc0] at h
    injection h with h
    exact h ▸ hc0d
  have hne : us.head? ≠ some '.' := by
    rw [hc0]
    intro h
    injection h with h
    exact hc0dot h
  constructor
  · have h1 := takeDropWhile_append Char.isDigit (d :: ds) us hdall husHead
    show matchSizeAt requireI ((d :: ds) ++ us) = _
    unfold matchSizeAt
    cases hsplit : (d :: ds) ++ us with
    | nil => simp at hsplit
    | cons y ys =>
      have hy : y = d := by
        simp only [List.cons_append] at hsplit
        exact (List.cons.injEq _ _ _ _ ▸ hsplit).1.symm ▸ rfl
      rw [← hsplit]
      simp only [List.cons_append]
      rw [show ((d :: (ds ++ us)).takeWhile Char.isDigit) = d :: ds from by
            have := h1.1; simpa using this,
          show ((d :: (ds ++ us)).dropWhile Char.isDigit) = us from by
            have := h1.2; simpa using this]
      simp [hd0, hne, hu]
  · have hr : ∀ c, ('.' :: fs ++ us).head? = some c → Char.isDigit c = false := by
      intro c h
      injection h with h
      subst h
      decide
    have h1 := takeDropWhile_append Char.isDigit (d :: ds) ('.' :: fs ++ us) hdall hr
    have h2 := takeDropWhile_append Char.isDigit fs us hf husHead
    show matchSizeAt requireI ((d :: ds) ++ '.' :: fs ++ us) = _
    unfold matchSizeAt
    cases hsplit : (d :: ds) ++ '.' :: fs ++ us with
    | nil => simp at hsplit
    | cons y ys =>
      rw [← hsplit]
      simp only [List.cons_append]
      rw [show ((d :: (ds ++ '.' :: fs ++ us)).takeWhile Char.isDigit) = d :: ds from by
            have := h1.1; simpa using this,
          show ((d :: (ds ++ '.' :: fs ++ us)).dropWhile Char.isDigit) = '.' :: fs ++ us from by
            have := h1.2; simpa using this]
      simp [hd0, h2.1, h2.2, hu]

/-- `searchSize` finds a well-formed token at position 0. -/
theorem searchSize_token (requireI : Bool) (d : Char) (ds fs us : List Char)
    (hd0 : d.isDigit = true)
    (hd : ∀ c ∈ ds, c.isDigit = true) (hf : ∀ c ∈ fs, c.isDigit = true)
    (c0 : Char) (hc0 : us.head? = some c0) (hc0d : c0.isDigit = false) (hc0dot : c0 ≠ '.')
    (hu : matchUnit requireI us = some (us, [])) :
    searchSize requireI (d :: ds ++ us) = some (d :: ds, us, []) ∧
    searchSize requireI (d :: ds ++ '.' :: fs ++ us) = some (d :: ds ++ '.' :: fs, us, []) := by
  have h := matchSizeAt_token requireI d ds fs us hd0 hd hf c0 hc0 hc0d hc0dot hu
  constructor
  · show searchSize requireI (d :: (ds ++ us)) = _
    unfold searchSize
    rw [show d :: (ds ++ us) = (d :: ds) ++ us from rfl, h.1]
  · show searchSize requireI (d :: (ds ++ '.' :: fs ++ us)) = _
    unfold searchSize
    rw [show d :: (ds ++ '.' :: fs ++ us) = (d :: ds) ++ '.' :: fs ++ us from rfl, h.2]

/-- Claim C4, amended: `parseFileSize` on a token `<number><unit>`
returns `number × factor` as an exact rational (not necessarily an
integer), where the factor of a binary unit is the corresponding power
of 1024, the factor of a decimal unit the corresponding power of 1000,
the factor of the matched-but-unknown unit `iB` is 1, and an
unparseable token yields 0; in particular
`parse("1.5MiB") = 1572864`, `parse("2GB") = 2000000000` and
`parse("garbage") = 0`. -/
theorem c4_parse_file_size_amended :
    (∀ (d : Char) (ds fs us : List Char),
      d.isDigit = true → (∀ c ∈ ds, c.isDigit = true) → (∀ c ∈ fs, c.isDigit = true) →
      (us = "B".data ∨ us = "KiB".data ∨ us = "MiB".data ∨ us = "GiB".data ∨
       us = "TiB".data ∨ us = "KB".data ∨ us = "MB".data ∨ us = "GB".data ∨
       us = "TB".data ∨ us = "iB".data) →
      parseFileSize (String.mk (d :: ds ++ us)) =
        parseDecimal (d :: ds) * ((multipliers.lookup (String.mk us)).getD 1) ∧
      parseFileSize (String.mk (d :: ds ++ '.' :: fs ++ us)) =
        parseDecimal (d :: ds ++ '.' :: fs) * ((multipliers.lookup (String.mk us)).getD 1)) ∧
    (multipliers.lookup "B" = some 1 ∧ multipliers.lookup "KiB" = some 1024 ∧
     multipliers.lookup "MiB" = some 1048576 ∧ multipliers.lookup "GiB" = some 1073741824 ∧
     multipliers.lookup "TiB" = some 1099511627776 ∧ multipliers.lookup "KB" = some 1000 ∧
     multipliers.lookup "MB" = some 1000000 ∧ multipliers.lookup "GB" = some 1000000000 ∧
     multipliers.lookup "TB" = some 1000000000000 ∧ multipliers.lookup "iB" = none) ∧
    (parseFileSize "1.5MiB" = 1572864 ∧ parseFileSize "2GB" = 2000000000 ∧
     parseFileSize "garbage" = 0 ∧ parseFileSize "7iB" = 7) := by
  refine ⟨?_, by decide, by decide⟩
  intro d ds fs us hd0 hd hf hus
  have key : ∃ c0, us.head? = some c0 ∧ c0.isDigit = false ∧ c0 ≠ '.' ∧
      matchUnit false us = some (us, []) := by
    rcases hus with h | h | h | h | h | h | h | h | h | h <;> subst h <;>
      exact ⟨_, rfl, by decide, by decide, by decide⟩
  obtain ⟨c0, hc0, hc0d, hc0dot, hu⟩ := key
  have h := searchSize_token false d ds fs us hd0 hd hf c0 hc0 hc0d hc0dot hu
  constructor
  · show parseFileSize ⟨d :: ds ++ us⟩ = _
    unfold parseFileSize
    rw [show (String.mk (d :: ds ++ us)).data = d :: ds ++ us from rfl, h.1]
  · show parseFileSize ⟨d :: ds ++ '.' :: fs ++ us⟩ = _
    unfold parseFileSize
    rw [show (String.mk (d :: ds ++ '.' :: fs ++ us)).data = d :: ds ++ '.' :: fs ++ us from rfl, h.2]

/-- Witness for C4's amended theorem at the token `4.5KiB`
(`4.5 × 1024 = 4608`). -/
theorem c4_parse_file_size_amended_witness :
    parseFileSize (String.mk ('4' :: [] ++ '.' :: ['5'] ++ "KiB".data)) =
      parseDecimal ('4' :: [] ++ '.' :: ['5']) * ((multipliers.lookup (String.mk "KiB".data)).getD 1) :=
  (c4_parse_file_size_amended.1 '4' [] ['5'] "KiB".data (by decide) (by decide) (by decide)
    (Or.inr (Or.inl rfl))).2

/-- Claim C4, counterexample to the claim as stated: the parser does not
always return an integer byte count — `parseFileSize "1.1KiB"` is the
non-integral rational `1126.4`. -/
theorem c4_counterexample :
    parseFileSize "1.1KiB" = 1126.4 ∧ ¬ ∃ n : ℤ, parseFileSize "1.1KiB" = (n : ℚ) := by
  constructor
  · decide
  · rintro ⟨n, h⟩
    have hd : (parseFileSize "1.1KiB").den = 1 := by rw [h]; exact Rat.den_intCast n
    have h5 : (parseFileSize "1.1KiB").den = 5 := by decide
    rw [h5] at hd
    exact absurd hd (by decide)

/-! ## C2 — how the URL reaches the external tool -/

/-- `(a ++ b).data` is the concatenation of the data. -/
theorem strData_append (a b : String) : (a ++ b).data = a.data ++ b.data := rfl

/-- Rebuilding a string from its characters is the identity. -/
theorem strMk_data (s : String) : String.mk s.data = s := rfl

/-- String concatenation is associative. -/
theorem strAppend_assoc (a b c : String) : a ++ b ++ c = a ++ (b ++ c) :=
  congrArg String.mk (List.append_assoc a.data b.data c.data)

/-- The control part of shell word splitting (`shellStep` without the
accumulated words, which never influence the control state). -/
def shellCore : Bool × Bool × List Char → Char → Bool × Bool × List Char
  | (inQ, _started, cur), c =>
    if c = '"' then (!inQ, true, cur)
    else if c = ' ' ∧ inQ = false then (inQ, false, [])
    else (inQ, true, c :: cur)

/-- One `shellStep` agrees with `shellCore` on the control part. -/
theorem shellStep_core (q st : Bool) (cur : List Char) (acc : List String) (c : Char) :
    shellCore (q, st, cur) c =
      ((shellStep (q, st, cur, acc) c).1, (shellStep (q, st, cur, acc) c).2.1,
       (shellStep (q, st, cur, acc) c).2.2.1) := by
  simp only [shellCore, shellStep]
  split_ifs <;> rfl

/-- Folding `shellStep` agrees with folding `shellCore` on the control
part, for any accumulated word list. -/
theorem foldl_shellStep_core (cs : List Char) :
    ∀ (q st : Bool) (cur : List Char) (acc : List String),
    ((cs.foldl shellStep (q, st, cur, acc)).1, (cs.foldl shellStep (q, st, cur, acc)).2.1,
     (cs.foldl shellStep (q, st, cur, acc)).2.2.1) = cs.foldl shellCore (q, st, cur) := by
  induction cs with
  | nil => intro q st cur acc; simp
  | cons c t ih =>
    intro q st cur acc
    rw [List.foldl_cons, List.foldl_cons]
    rcases hs : shellStep (q, st, cur, acc) c with ⟨q2, st2, cur2, acc2⟩
    have hcore : shellCore (q, st, cur) c = (q2, st2, cur2) := by
      rw [shellStep_core q st cur acc c, hs]
    rw [hcore]
    exact ih q2 st2 cur2 acc2

/-- A space outside quotes resets the control state, whatever the
current word was. -/
theorem shellCore_space (st : Bool) (cur : List Char) :
    shellCore (false, st, cur) ' ' = (false, false, []) := by
  simp [shellCore]

/-- After `arr.join(' ')` for options each of which closes every double
quote it opens, the splitter is outside quotes. -/
theorem joinSpace_core_closed (opts : List String)
    (h : ∀ o ∈ opts, ((o.data.foldl shellCore (false, false, [])).1 = false)) :
    ((joinSpace opts).data.foldl shellCore (false, false, [])).1 = false := by
  induction opts with
  | nil => simp [joinSpace]
  | cons a rest ih =>
    cases rest with
    | nil => exact h a (by simp)
    | cons b rest2 =>
      have hdata : (joinSpace (a :: b :: rest2)).data =
          a.data ++ (' ' :: (joinSpace (b :: rest2)).data) := by
        show (a ++ " " ++ joinSpace (b :: rest2)).data = _
        rw [strAppend_assoc, strData_append]
        rfl
      rw [hdata, List.foldl_append]
      rcases hA : a.data.foldl shellCore (false, false, []) with ⟨qa, sta, cura⟩
      have hqa : qa = false := by
        have := h a (by simp)
        rw [hA] at this
        exact this
      subst hqa
      rw [List.foldl_cons, shellCore_space]
      exact ih (fun o ho => h o (by simp [ho]))

/-- The common tail of the two video-mode commands at quality `720` and
temp stem `/tmp/f`: format selection, merge flag and output template,
ending with the double quote that opens the URL argument. -/
def cmdTail720 : String :=
  " -f \"bestvideo[height<=720][ext=mp4]+bestaudio[ext=m4a]/bestvideo[height<=720]+bestaudio/best[height<=720]\" --merge-output-format mp4 -o \"/tmp/f.%(ext)s\" \""

/-- Everything of the buffered video command before the interpolated
URL. -/
def directCmdStem : String := "yt-dlp " ++ directBaseOptions ++ cmdTail720

/-- Everything of the progressive video command before the interpolated
URL. -/
def progressCmdStem : String := "yt-dlp " ++ progressBaseOptions ++ cmdTail720

/-- The buffered video command is the stem, the URL, and a closing
double quote. -/
theorem buildDownload_decomp (url : String) :
    buildDownloadCommand url "720" false "/tmp/f" = directCmdStem ++ url ++ "\"" := by
  have hmerge : " -f \"bestvideo[height<=" ++ "720" ++
      "][ext=mp4]+bestaudio[ext=m4a]/bestvideo[height<=" ++ "720" ++
      "]+bestaudio/best[height<=" ++ "720" ++
      "]\" --merge-output-format mp4 -o \"" ++ "/tmp/f" ++ ".%(ext)s\" \"" = cmdTail720 := by
    decide
  show "yt-dlp " ++ directBaseOptions ++ " -f \"bestvideo[height<=" ++ "720" ++
      "][ext=mp4]+bestaudio[ext=m4a]/bestvideo[height<=" ++ "720" ++
      "]+bestaudio/best[height<=" ++ "720" ++
      "]\" --merge-output-format mp4 -o \"" ++ "/tmp/f" ++ ".%(ext)s\" \"" ++ url ++ "\"" =
    "yt-dlp " ++ directBaseOptions ++ cmdTail720 ++ url ++ "\""
  rw [← hmerge]
  simp only [strAppend_assoc]

/-- The progressive video command is the stem, the URL, and a closing
double quote. -/
theorem buildProgress_decomp (url : String) :
    buildProgressCommand url "720" false "/tmp/f" = progressCmdStem ++ url ++ "\"" := by
  have hmerge : " -f \"bestvideo[height<=" ++ "720" ++
      "][ext=mp4]+bestaudio[ext=m4a]/bestvideo[height<=" ++ "720" ++
      "]+bestaudio/best[height<=" ++ "720" ++
      "]\" --merge-output-format mp4 -o \"" ++ "/tmp/f" ++ ".%(ext)s\" \"" = cmdTail720 := by
    decide
  show "yt-dlp " ++ progressBaseOptions ++ " -f \"bestvideo[height<=" ++ "720" ++
      "][ext=mp4]+bestaudio[ext=m4a]/bestvideo[height<=" ++ "720" ++
      "]+bestaudio/best[height<=" ++ "720" ++
      "]\" --merge-output-format mp4 -o \"" ++ "/tmp/f" ++ ".%(ext)s\" \"" ++ url ++ "\"" =
    "yt-dlp " ++ progressBaseOptions ++ cmdTail720 ++ url ++ "\""
  rw [← hmerge]
  simp only [strAppend_assoc]

/-- Control state after a video-command stem: inside the quote that
opens the URL argument, with an empty current word. -/
theorem stem_core (base : String)
    (hbase : (base.data.foldl shellCore (false, false, [])).1 = false) :
    (("yt-dlp " ++ base ++ cmdTail720).data.foldl shellCore (false, false, [])) =
      (true, true, []) := by
  have hdata : ("yt-dlp " ++ base ++ cmdTail720).data =
      "yt-dlp ".data ++ (base.data ++ cmdTail720.data) := by
    rw [strAppend_assoc, strData_append, strData_append]
  rw [hdata, List.foldl_append, List.foldl_append]
  have h0 : "yt-dlp ".data.foldl shellCore (false, false, []) = (false, false, []) := by decide
  rw [h0]
  rcases hB : base.data.foldl shellCore (false, false, []) with ⟨qb, stb, curb⟩
  have hqb : qb = false := by rw [hB] at hbase; exact hbase
  subst hqb
  have htail : cmdTail720.data = ' ' :: ("-f \"bestvideo[height<=720][ext=mp4]+bestaudio[ext=m4a]/bestvideo[height<=720]+bestaudio/best[height<=720]\" --merge-output-format mp4 -o \"/tmp/f.%(ext)s\" \"").data := by
    decide
  rw [htail, List.foldl_cons, shellCore_space]
  decide

/-- The buffered-command stem leaves the splitter inside the URL's
opening quote. -/
theorem directCmdStem_core :
    (directCmdStem.data.foldl shellCore (false, false, [])) = (true, true, []) := by
  apply stem_core
  apply joinSpace_core_closed
  intro o ho
  fin_cases ho <;> decide

/-- The progressive-command stem leaves the splitter inside the URL's
opening quote. -/
theorem progressCmdStem_core :
    (progressCmdStem.data.foldl shellCore (false, false, [])) = (true, true, []) := by
  apply stem_core
  apply joinSpace_core_closed
  intro o ho
  fin_cases ho <;> decide

/-- Folding the shell-split step over quote-free characters in an open
double-quoted context just accumulates them into the current word. -/
theorem foldl_shellStep_noquote (cs : List Char) (h : ∀ c ∈ cs, c ≠ '"')
    (cur : List Char) (acc : List String) :
    cs.foldl shellStep (true, true, cur, acc) = (true, true, cs.reverse ++ cur, acc) := by
  induction cs generalizing cur with
  | nil => simp
  | cons c t ih =>
    have hc : ¬(c = '"') := h c (by simp)
    have hstep : shellStep (true, true, cur, acc) c = (true, true, c :: cur, acc) := by
      simp [shellStep, hc]
    rw [List.foldl_cons, hstep, ih (fun c hc => h c (by simp [hc]))]
    simp

/-- Shell splitting of `stem ++ url ++ '"'` for a quote-free URL: the
stem's words followed by the URL as one discrete word. -/
theorem shellSplit_stem_url (stem url : String)
    (hcore : stem.data.foldl shellCore (false, false, []) = (true, true, []))
    (hq : ∀ c ∈ url.data, c ≠ '"') :
    shellSplit (stem ++ url ++ "\"") =
      (stem.data.foldl shellStep (false, false, [], [])).2.2.2 ++ [url] := by
  unfold shellSplit
  have hdata : (stem ++ url ++ "\"").data = stem.data ++ (url.data ++ ['"']) := by
    rw [strAppend_assoc, strData_append, strData_append]
  rw [hdata, List.foldl_append, List.foldl_append]
  rcases hS : stem.data.foldl shellStep (false, false, [], []) with ⟨q1, st1, cur1, acc1⟩
  have hSc := foldl_shellStep_core stem.data false false [] []
  rw [hS, hcore] at hSc
  have hq1 : q1 = true := by
    have := congrArg (fun x : Bool × Bool × List Char => x.1) hSc
    simpa using this
  have hst1 : st1 = true := by
    have := congrArg (fun x : Bool × Bool × List Char => x.2.1) hSc
    simpa using this
  have hcur1 : cur1 = [] := by
    have := congrArg (fun x : Bool × Bool × List Char => x.2.2) hSc
    simpa using this
  subst hq1 hst1 hcur1
  rw [foldl_shellStep_noquote url.data hq [] acc1]
  have hlast : (['"'].foldl shellStep (true, true, url.data.reverse ++ [], acc1)) =
      (false, true, url.data.reverse ++ [], acc1) := by
    simp [shellStep]
  rw [hlast]
  simp [strMk_data]

/-- Every word produced by shell splitting is quote-free (the splitter
removes the double quotes and never copies one into a word). -/
theorem shellSplit_words_noquote (s : String) (w : String) (hw : w ∈ shellSplit s) :
    ∀ c ∈ w.data, c ≠ '"' := by
  have key : ∀ (cs : List Char) (q st : Bool) (cur : List Char) (acc : List String),
      (∀ c ∈ cur, c ≠ '"') → (∀ w ∈ acc, ∀ c ∈ w.data, c ≠ '"') →
      (∀ c ∈ (cs.foldl shellStep (q, st, cur, acc)).2.2.1, c ≠ '"') ∧
      (∀ w ∈ (cs.foldl shellStep (q, st, cur, acc)).2.2.2, ∀ c ∈ w.data, c ≠ '"') := by
    intro cs
    induction cs with
    | nil => intro q st cur acc hcur hacc; exact ⟨hcur, hacc⟩
    | cons c t ih =>
      intro q st cur acc hcur hacc
      rw [List.foldl_cons]
      by_cases hc : c = '"'
      · rw [show shellStep (q, st, cur, acc) c = (!q, true, cur, acc) by simp [shellStep, hc]]
        exact ih _ _ _ _ hcur hacc
      · by_cases hsp : c = ' ' ∧ q = false
        · rw [show shellStep (q, st, cur, acc) c =
              (q, false, [], acc ++ if st then [String.mk cur.reverse] else []) by
                simp [shellStep, hc, hsp.1, hsp.2]]
          apply ih
          · simp
          · intro w hw
            rcases List.mem_append.mp hw with h | h
            · exact hacc w h
            · rcases st with _ | _
              · simp at h
              · simp at h
                subst h
                intro ch hch
                exact hcur ch (by simpa using hch)
        · rw [show shellStep (q, st, cur, acc) c = (q, true, c :: cur, acc) by
                simp [shellStep, hc, hsp]]
          apply ih
          · intro ch hch
            rcases List.mem_cons.mp hch with h | h
            · exact h ▸ hc
            · exact hcur ch h
          · exact hacc
  unfold shellSplit at hw
  rcases hF : s.data.foldl shellStep (false, false, [], []) with ⟨q1, st1, cur1, acc1⟩
  rw [hF] at hw
  have hk := key s.data false false [] [] (by simp) (by simp)
  rw [hF] at hk
  simp only at hw hk
  rcases List.mem_append.mp hw with h | h
  · exact hk.2 w h
  · rcases st1 with _ | _
    · simp at h
    · simp at h
      subst h
      intro ch hch
      exact hk.1 ch (by simpa using hch)

/-- Claim C2, amended: the command builders do not produce an argument
vector — each returns a single shell command string assembled by string
concatenation, with the user URL interpolated between double quotes,
and `child_process.exec` hands that string to a shell.  The URL reaches
the tool as one argument only by virtue of the quoting: for a URL with
no double-quote character, shell word splitting leaves the URL as the
last, discrete word of the command, but the interpolation is naive (no
escaping), so this fails for URLs containing a double quote (see the
counterexample). -/
theorem c2_shell_string_amended :
    (∀ url q t,
      buildDownloadCommand url q false t =
        "yt-dlp " ++ directBaseOptions ++ " -f \"bestvideo[height<=" ++ q ++
        "][ext=mp4]+bestaudio[ext=m4a]/bestvideo[height<=" ++ q ++
        "]+bestaudio/best[height<=" ++ q ++
        "]\" --merge-output-format mp4 -o \"" ++ t ++ ".%(ext)s\" \"" ++ url ++ "\"" ∧
      buildDownloadCommand url q true t =
        "yt-dlp " ++ directBaseOptions ++
        " -f \"bestaudio/best\" --extract-audio --audio-format mp3 --audio-quality 0 -o \"" ++
        t ++ ".%(ext)s\" \"" ++ url ++ "\"" ∧
      buildProgressCommand url q false t =
        "yt-dlp " ++ progressBaseOptions ++ " -f \"bestvideo[height<=" ++ q ++
        "][ext=mp4]+bestaudio[ext=m4a]/bestvideo[height<=" ++ q ++
        "]+bestaudio/best[height<=" ++ q ++
        "]\" --merge-output-format mp4 -o \"" ++ t ++ ".%(ext)s\" \"" ++ url ++ "\"" ∧
      buildProgressCommand url q true t =
        "yt-dlp " ++ progressBaseOptions ++
        " -f \"bestaudio/best\" --extract-audio --audio-format mp3 --audio-quality 0 -o \"" ++
        t ++ ".%(ext)s\" \"" ++ url ++ "\"") ∧
    (∀ url, (∀ c ∈ url.data, c ≠ '"') →
      (shellSplit (buildDownloadCommand url "720" false "/tmp/f")).getLast? = some url ∧
      (shellSplit (buildProgressCommand url "720" false "/tmp/f")).getLast? = some url) := by
  constructor
  · intro url q t
    exact ⟨rfl, rfl, rfl, rfl⟩
  · intro url hq
    constructor
    · rw [buildDownload_decomp url, shellSplit_stem_url directCmdStem url directCmdStem_core hq]
      exact List.getLast?_concat _
    · rw [buildProgress_decomp url, shellSplit_stem_url progressCmdStem url progressCmdStem_core hq]
      exact List.getLast?_concat _

/-- Witness for C2's amended theorem at a concrete quote-free URL. -/
theorem c2_shell_string_amended_witness :
    (shellSplit (buildDownloadCommand "https://youtu.be/abc" "720" false "/tmp/f")).getLast? =
      some "https://youtu.be/abc" :=
  (c2_shell_string_amended.2 "https://youtu.be/abc" (by decide)).1

/-- Claim C2, counterexample to the claim as stated: the URL is not
passed as a discrete element of an argument vector.  For the URL
`x" y` the shell words of the built buffered-mode command do not
contain the URL at all — the double quote inside it terminates the
quoted argument and the URL arrives as the two words `x` and `y`. -/
theorem c2_counterexample :
    "x\" y" ∉ shellSplit (buildDownloadCommand "x\" y" "720" false "/tmp/f") ∧
    "x" ∈ shellSplit (buildDownloadCommand "x\" y" "720" false "/tmp/f") ∧
    "y" ∈ shellSplit (buildDownloadCommand "x\" y" "720" false "/tmp/f") := by
  have hsplit : shellSplit (buildDownloadCommand "x\" y" "720" false "/tmp/f") =
      (directCmdStem.data.foldl shellStep (false, false, [], [])).2.2.2 ++ ["x", "y"] := by
    rw [buildDownload_decomp "x\" y"]
    unfold shellSplit
    have hdata : (directCmdStem ++ "x\" y" ++ "\"").data =
        directCmdStem.data ++ ['x', '"', ' ', 'y', '"'] := by
      rw [strAppend_assoc, strData_append]
      rfl
    rw [hdata, List.foldl_append]
    rcases hS : directCmdStem.data.foldl shellStep (false, false, [], []) with ⟨q1, st1, cur1, acc1⟩
    have hSc := foldl_shellStep_core directCmdStem.data false false [] []
    rw [hS, directCmdStem_core] at hSc
    have hq1 : q1 = true := by
      have := congrArg (fun x : Bool × Bool × List Char => x.1) hSc
      simpa using this
    have hst1 : st1 = true := by
      have := congrArg (fun x : Bool × Bool × List Char => x.2.1) hSc
      simpa using this
    have hcur1 : cur1 = [] := by
      have := congrArg (fun x : Bool × Bool × List Char => x.2.2) hSc
      simpa using this
    subst hq1 hst1 hcur1
    have hstep : (['x', '"', ' ', 'y', '"'].foldl shellStep (true, true, [], acc1)) =
        (true, true, ['y'], acc1 ++ ["x"]) := by
      simp [shellStep]
    rw [hstep]
    simp
  refine ⟨?_, ?_, ?_⟩
  · intro h
    have := shellSplit_words_noquote _ _ h '"' (by decide)
    exact this rfl
  · rw [hsplit]; simp
  · rw [hsplit]; simp

/-! ## C8 — cleanup never propagates -/

/-- Claim C8: `cleanupFile` never propagates an error: for every unlink
outcome it returns normally, and when the unlink failed (missing or
already-deleted file) the only trace is the warning log line. -/
theorem c8_cleanup_never_throws :
    ∀ (unlinkOutcome : Except String Unit) (filePath : String),
      (∃ logs, cleanupFile unlinkOutcome filePath = .ok logs) ∧
      (∀ m, unlinkOutcome = .error m →
        cleanupFile unlinkOutcome filePath =
          .ok ["warn: Failed to cleanup file " ++ filePath ++ ": " ++ m]) := by
  intro unlinkOutcome filePath
  constructor
  · cases unlinkOutcome with
    | ok _ => exact ⟨_, rfl⟩
    | error m => exact ⟨_, rfl⟩
  · intro m hm
    subst hm
    rfl

/-- Witness for C8 at a concrete failing unlink. -/
theorem c8_cleanup_never_throws_witness :
    cleanupFile (.error "ENOENT") "/tmp/video_1_ab.mp4" =
      .ok ["warn: Failed to cleanup file " ++ "/tmp/video_1_ab.mp4" ++ ": " ++ "ENOENT"] :=
  (c8_cleanup_never_throws (.error "ENOENT") "/tmp/video_1_ab.mp4").2 "ENOENT" rfl

/-! ## C9 — defaults agree between the DTO and the service -/

/-- Claim C9: the DTO defaults (`quality = '720'`, `audioOnly = false`)
and the service-side destructuring defaults agree, so a request that
omits `quality` or `audioOnly` behaves in both the buffered and the
progressive operation exactly as if the omitted field had the default
value. -/
theorem c9_defaults_agree :
    dtoQualityDefault = "720" ∧ dtoAudioOnlyDefault = false ∧
    (∀ (env : BufferedEnv) (r : DownloadRequest),
      downloadVideo env (applyDtoDefaults r) = downloadVideo env r) ∧
    (∀ (r : DownloadRequest) (fileExists : Bool) (fileSize : Nat) (obs : List Obs),
      createProgressiveDownloadStream (applyDtoDefaults r) fileExists fileSize obs =
        createProgressiveDownloadStream r fileExists fileSize obs) := by
  refine ⟨rfl, rfl, ?_, ?_⟩
  · intro env r
    cases hq : r.quality <;> cases ha : r.audioOnly <;>
      simp [applyDtoDefaults, downloadVideo, hq, ha, dtoQualityDefault, dtoAudioOnlyDefault]
  · intro r fileExists fileSize obs
    cases hq : r.quality <;> cases ha : r.audioOnly <;>
      simp [applyDtoDefaults, createProgressiveDownloadStream, hq, ha,
        dtoQualityDefault, dtoAudioOnlyDefault]

/-! ## C10 — `safeEnqueue` drops silently once closed -/

/-- Claim C10: once the controller is closed or one enqueue attempt has
thrown (the `controllerClosed` flag), `safeEnqueue` never enqueues
again and never raises: with the flag set it is the identity; with the
stream closed it drops the event, records the thrown-and-caught close
in the flag, and every subsequent call is the identity. -/
theorem c10_safe_enqueue_drops :
    ∀ (s : SupState) (e : ProgressUpdate),
      (s.controllerClosed = true → safeEnqueue s e = s) ∧
      (s.streamClosed = true →
        (safeEnqueue s e).events = s.events ∧
        (safeEnqueue s e).controllerClosed = true ∧
        (∀ e2, safeEnqueue (safeEnqueue s e) e2 = safeEnqueue s e)) := by
  intro s e
  constructor
  · intro h
    simp [safeEnqueue, h]
  · intro h
    by_cases hf : s.controllerClosed = true
    · refine ⟨by simp [safeEnqueue, hf], by simp [safeEnqueue, hf, h], ?_⟩
      intro e2
      simp [safeEnqueue, hf]
    · have hf2 : s.controllerClosed = false := by
        cases hc : s.controllerClosed
        · rfl
        · exact absurd hc hf
      refine ⟨by simp [safeEnqueue, hf2, h], by simp [safeEnqueue, hf2, h], ?_⟩
      intro e2
      simp [safeEnqueue, hf2, h]

/-- Witness for C10 at a concrete closed state. -/
theorem c10_safe_enqueue_drops_witness :
    (safeEnqueue { events := [], controllerClosed := false, streamClosed := true }
        { type := EType.progress, message := "m" }).events = [] :=
  ((c10_safe_enqueue_drops { events := [], controllerClosed := false, streamClosed := true }
    { type := EType.progress, message := "m" }).2 rfl).1

/-! ## C6 — buffered-mode fallback path -/

/-- Claim C6: when the direct download fails, the service runs the
URL-resolve-only (`--get-url`) command with the same quality/audio
constraints; if that succeeds the caller gets a fallback result whose
`urls` are the non-empty lines of the tool's (trimmed) stdout and whose
`directDownload` is `false` — no file bytes; if it also fails, the
caller gets the structured `{error, details, suggestion}` object
carrying the original failure message. -/
theorem c6_fallback_path :
    ∀ (env : BufferedEnv) (r : DownloadRequest) (m : String),
      env.directExec = .error m →
      (∀ out, env.fallbackExec = .ok out →
        downloadVideo env r = .fallback
          { success := true, directDownload := false,
            urls := (splitLines (trimStr out)).filter (fun u => u.length > 0),
            message := "Direct download not available, use these URLs",
            instruction := if r.audioOnly.getD false then "Audio URL"
              else "Video URLs (may need merging)" } ∧
        (∀ u ∈ (splitLines (trimStr out)).filter (fun u => u.length > 0), u ≠ "")) ∧
      (∀ m2, env.fallbackExec = .error m2 →
        downloadVideo env r = .error
          { error := "Download failed", details := m,
            suggestion := "Try a different quality or check if yt-dlp is installed and updated" }) ∧
      (fallbackFormat (r.quality.getD "720") true = "bestaudio/best" ∧
       fallbackFormat (r.quality.getD "720") false =
         "bestvideo[height<=" ++ r.quality.getD "720" ++ "]+bestaudio/best[height<=" ++
           r.quality.getD "720" ++ "]" ∧
       fallbackCommand r.url (r.quality.getD "720") (r.audioOnly.getD false) =
         "yt-dlp " ++ fallbackBaseOptions ++ " --get-url -f \"" ++
           fallbackFormat (r.quality.getD "720") (r.audioOnly.getD false) ++ "\" \"" ++
           r.url ++ "\"") := by
  intro env r m hdir
  refine ⟨?_, ?_, rfl, rfl, rfl⟩
  · intro out hout
    constructor
    · simp [downloadVideo, getFallbackUrls, hdir, hout]
    · intro u hu heq
      have hp := (List.mem_filter.mp hu).2
      rw [heq] at hp
      simp at hp
  · intro m2 hm2
    simp [downloadVideo, getFallbackUrls, hdir, hm2]

/-- Witness for C6 (direct failure, fallback success with two stdout
lines). -/
theorem c6_fallback_path_witness :
    downloadVideo
      { directExec := .error "boom", fallbackExec := .ok "https://a.example/v\nhttps://b.example/a",
        fileExists := false, fileBytes := [], fileSize := 0, tempFile := "/tmp/f" }
      { url := "u", quality := none, audioOnly := none } = .fallback
      { success := true, directDownload := false,
        urls := (splitLines (trimStr "https://a.example/v\nhttps://b.example/a")).filter
          (fun u => u.length > 0),
        message := "Direct download not available, use these URLs",
        instruction := if (none : Option Bool).getD false then "Audio URL"
          else "Video URLs (may need merging)" } :=
  ((c6_fallback_path
    { directExec := .error "boom", fallbackExec := .ok "https://a.example/v\nhttps://b.example/a",
      fileExists := false, fileBytes := [], fileSize := 0, tempFile := "/tmp/f" }
    { url := "u", quality := none, audioOnly := none } "boom" rfl).1
    "https://a.example/v\nhttps://b.example/a" rfl).1

/-! ## C7 — exit 0 with a missing output file is a failure -/

/-- Claim C7: a zero exit with the expected output file missing is
treated as a failure in both modes — the buffered operation never
returns a success result (and surfaces the distinct
`Downloaded file not found after successful command execution` message
when the fallback also fails), and the progressive completion handler
emits a terminal `File processing failed` error event (never a
`complete` event) and closes the stream. -/
theorem c7_missing_file_is_failure :
    (∀ (env : BufferedEnv) (r : DownloadRequest) (out : String),
      env.directExec = .ok out → env.fileExists = false →
      (∀ buf md, downloadVideo env r ≠ .success buf md) ∧
      (∀ m2, env.fallbackExec = .error m2 →
        downloadVideo env r = .error
          { error := "Download failed",
            details := "Downloaded file not found after successful command execution",
            suggestion := "Try a different quality or check if yt-dlp is installed and updated" })) ∧
    (∀ (url quality : String) (audioOnly : Bool) (fileSize : Nat) (s : SupState),
      s.streamClosed = false → s.controllerClosed = false →
      handleProgressComplete (some 0) false fileSize url quality audioOnly s =
        { events := s.events ++ [{ type := EType.error, message := "File processing failed" }],
          controllerClosed := false, streamClosed := true }) := by
  constructor
  · intro env r out hdir hfile
    constructor
    · intro buf md heq
      rcases hfb : env.fallbackExec with m2 | o2 <;>
        simp [downloadVideo, getFallbackUrls, hdir, hfile, hfb] at heq
    · intro m2 hm2
      simp [downloadVideo, getFallbackUrls, hdir, hfile, hm2]
  · intro url quality audioOnly fileSize s hclosed hflag
    simp [handleProgressComplete, safeEnqueue, closeController, hclosed, hflag]

/-- Witness for C7 (buffered branch: exit 0, no file, fallback also
failing). -/
theorem c7_missing_file_is_failure_witness :
    downloadVideo
      { directExec := .ok "", fallbackExec := .error "nope",
        fileExists := false, fileBytes := [], fileSize := 0, tempFile := "/tmp/f" }
      { url := "u", quality := none, audioOnly := none } = .error
      { error := "Download failed",
        details := "Downloaded file not found after successful command execution",
        suggestion := "Try a different quality or check if yt-dlp is installed and updated" } :=
  ((c7_missing_file_is_failure.1
    { directExec := .ok "", fallbackExec := .error "nope",
      fileExists := false, fileBytes := [], fileSize := 0, tempFile := "/tmp/f" }
    { url := "u", quality := none, audioOnly := none } "" rfl rfl).2 "nope" rfl)

/-! ## C5 — the progress line parser -/

/-- The value of a captured numeral is non-negative. -/
theorem parseDecimal_nonneg (cs : List Char) : 0 ≤ parseDecimal cs := by
  unfold parseDecimal
  positivity

/-- Claim C5: every stdout line that matches the download-progress
marker (contains `[download]` and `%`, with an extractable percentage)
yields exactly one `progress` event, whose percentage is the extracted
number clamped to `[0, 100]` and which carries the transferred/total
byte counts obtained from the File-size Unit Parser when a pair of size
tokens is present; in particular the line
`"[download]  42.5% of 10.00MiB at 1.00MiB/s"` yields exactly one
`progress` event with `progress == 42.5` (sizes `10 MiB` and `1 MiB`
from the two size tokens on the line). -/
theorem c5_progress_line :
    (∀ (line : String) (num : List Char),
      containsSub line "[download]" = true → containsSub line "%" = true →
      searchPct line.data = some num →
      (lineEvents line).filter (fun e => e.type == EType.progress) =
        [{ type := .progress, progress := some (min (parseDecimal num) 100),
           downloadedSize := some (lineSizes line).1, totalSize := some (lineSizes line).2,
           message := "Downloading... " ++ jsToFixed1 (parseDecimal num) ++ "%" }] ∧
      0 ≤ min (parseDecimal num) 100 ∧ min (parseDecimal num) 100 ≤ 100) ∧
    parseProgressOutput "[download]  42.5% of 10.00MiB at 1.00MiB/s" =
      [{ type := .progress, progress := some 42.5, downloadedSize := some 10485760,
         totalSize := some 1048576, message := "Downloading... 42.5%" }] := by
  constructor
  · intro line num h1 h2 h3
    refine ⟨?_, le_min (parseDecimal_nonneg num) (by norm_num), min_le_right _ _⟩
    unfold lineEvents
    rw [h1, h2, h3]
    by_cases hf : (containsSub line "[ffmpeg]" || containsSub line "Merging") = true
    · simp [hf, List.filter]
      rfl
    · simp only [Bool.not_eq_true] at hf
      simp [hf, List.filter]
      rfl
  · decide

/-- Witness for C5's line-parser theorem at the example line. -/
theorem c5_progress_line_witness :
    (lineEvents "[download]  42.5% of 10.00MiB at 1.00MiB/s").filter
        (fun e => e.type == EType.progress) =
      [{ type := .progress,
         progress := some (min (parseDecimal "42.5".data) 100),
         downloadedSize := some (lineSizes "[download]  42.5% of 10.00MiB at 1.00MiB/s").1,
         totalSize := some (lineSizes "[download]  42.5% of 10.00MiB at 1.00MiB/s").2,
         message := "Downloading... " ++ jsToFixed1 (parseDecimal "42.5".data) ++ "%" }] :=
  (c5_progress_line.1 "[download]  42.5% of 10.00MiB at 1.00MiB/s" "42.5".data
    (by decide) (by decide) (by decide)).1

/-! ## C1/C3 — the progressive event stream -/

/-- Terminal events of one progressive request: the `complete` event, or
one of the final unrecoverable `error` events (the ones the service
emits immediately before closing the controller: the exit-code error,
the file-processing error, and the process-spawn error).  The
mid-stream stderr `error` events all carry the `Download error: `
prefix and match none of these. -/
def isTerminal (e : ProgressUpdate) : Bool :=
  e.type == EType.complete ||
  (e.type == EType.error &&
    (strStarts e.message "File processing failed" ||
     strStarts e.message "Download failed with exit code" ||
     strStarts e.message "Process failed: "))

/-- The empty needle is a prefix of everything. -/
theorem listStarts_nil (h : List Char) : listStarts h [] = true := by
  cases h <;> rfl

/-- A prefix test against `a ++ b` is decided by `a` alone when the
needle fits inside `a`. -/
theorem listStarts_append_long (n : List Char) :
    ∀ (a b : List Char), n.length ≤ a.length → listStarts (a ++ b) n = listStarts a n := by
  induction n with
  | nil => intro a b _; rw [listStarts_nil, listStarts_nil]
  | cons c n2 ih =>
    intro a b h
    cases a with
    | nil => simp at h
    | cons x a2 =>
      simp only [List.cons_append, listStarts, List.append_eq]
      rw [ih a2 b (by simpa using h)]

/-- A prefix test survives truncating the needle. -/
theorem listStarts_take (n : List Char) :
    ∀ (h : List Char) (k : Nat), listStarts h n = true → listStarts h (n.take k) = true := by
  induction n with
  | nil => intro h k _; simp only [List.take_nil]; exact listStarts_nil _
  | cons c n2 ih =>
    intro h k hs
    cases h with
    | nil => simp [listStarts] at hs
    | cons x h2 =>
      cases k with
      | zero => simp only [List.take_zero]; exact listStarts_nil _
      | succ k2 =>
        simp only [List.take_succ_cons, listStarts] at hs ⊢
        rcases Bool.and_eq_true_iff.mp hs with ⟨h1, h2'⟩
        rw [h1, ih h2 k2 h2']
        rfl

/-- A string starting with the fixed prefix `a` cannot start with a
needle that already disagrees with `a` on its first `k` characters. -/
theorem strStarts_concrete_false (a x n : String) (k : Nat)
    (hlen : (n.data.take k).length ≤ a.data.length)
    (hne : listStarts a.data (n.data.take k) = false) :
    strStarts (a ++ x) n = false := by
  unfold strStarts
  rw [strData_append]
  cases hS : listStarts (a.data ++ x.data) n.data
  · rfl
  · exfalso
    have h1 := listStarts_take n.data (a.data ++ x.data) k hS
    rw [listStarts_append_long (n.data.take k) a.data x.data hlen] at h1
    rw [h1] at hne
    simp at hne

/-- The mid-stream stderr error events are not terminal. -/
theorem stderr_event_nonterminal (x : String) :
    isTerminal { type := EType.error, message := "Download error: " ++ x } = false := by
  have h1 := strStarts_concrete_false "Download error: " x "File processing failed" 1
    (by decide) (by decide)
  have h2 := strStarts_concrete_false "Download error: " x "Download failed with exit code" 10
    (by decide) (by decide)
  have h3 := strStarts_concrete_false "Download error: " x "Process failed: " 1
    (by decide) (by decide)
  simp only [isTerminal, h1, h2, h3]
  rfl

/-- Events whose type is not `complete` or `error` are not terminal. -/
theorem nonerror_nonterminal (e : ProgressUpdate)
    (h : e.type = EType.progress ∨ e.type = EType.processing ∨ e.type = EType.start) :
    isTerminal e = false := by
  unfold isTerminal
  rcases h with h | h | h <;> rw [h] <;> rfl

/-- Nothing the progress-line parser emits is terminal. -/
theorem parseProgressOutput_nonterminal (chunk : String) :
    ∀ e ∈ parseProgressOutput chunk, isTerminal e = false := by
  intro e he
  unfold parseProgressOutput at he
  rw [List.mem_flatMap] at he
  obtain ⟨line, _, hline⟩ := he
  apply nonerror_nonterminal
  unfold lineEvents at hline
  simp only at hline
  rcases List.mem_append.mp hline with h | h
  · split at h
    · split at h
      · rw [List.mem_singleton] at h
        subst h
        exact Or.inl rfl
      · simp at h
    · simp at h
  · split at h
    · rw [List.mem_singleton] at h
      subst h
      exact Or.inr (Or.inl rfl)
    · simp at h

/-- No terminal event occurs in the list. -/
def noTermEvents (l : List ProgressUpdate) : Prop := ∀ e ∈ l, isTerminal e = false

/-- The supervisor invariant: the `controllerClosed` flag implies the
controller really closed; while the controller is open no terminal
event has been emitted; and a terminal event can only be the last
emitted event. -/
def SupInv (s : SupState) : Prop :=
  (s.controllerClosed = true → s.streamClosed = true) ∧
  (s.streamClosed = false → noTermEvents s.events) ∧
  (∀ e ∈ s.events.dropLast, isTerminal e = false)

/-- With the stream closed, `safeEnqueue` drops the event and the
stream stays closed. -/
theorem safeEnqueue_closed_events (s : SupState) (e : ProgressUpdate)
    (h : s.streamClosed = true) :
    (safeEnqueue s e).events = s.events ∧ (safeEnqueue s e).streamClosed = true := by
  cases hc : s.controllerClosed <;> simp [safeEnqueue, hc, h]

/-- With the stream closed, folding `safeEnqueue` is inert. -/
theorem foldl_safeEnqueue_closed (l : List ProgressUpdate) :
    ∀ (s : SupState), s.streamClosed = true →
    (l.foldl safeEnqueue s).events = s.events ∧ (l.foldl safeEnqueue s).streamClosed = true := by
  induction l with
  | nil => intro s h; exact ⟨rfl, h⟩
  | cons e t ih =>
    intro s h
    rw [List.foldl_cons]
    have h1 := safeEnqueue_closed_events s e h
    have h2 := ih (safeEnqueue s e) h1.2
    exact ⟨h2.1.trans h1.1, h2.2⟩

/-- With flag and stream open, `safeEnqueue` appends. -/
theorem safeEnqueue_open (s : SupState) (e : ProgressUpdate)
    (h1 : s.streamClosed = false) (h2 : s.controllerClosed = false) :
    safeEnqueue s e = { s with events := s.events ++ [e] } := by
  simp [safeEnqueue, h1, h2]

/-- With flag and stream open, folding `safeEnqueue` appends the whole
list. -/
theorem foldl_safeEnqueue_open (l : List ProgressUpdate) :
    ∀ (s : SupState), s.streamClosed = false → s.controllerClosed = false →
    l.foldl safeEnqueue s = { s with events := s.events ++ l } := by
  induction l with
  | nil => intro s h1 h2; simp
  | cons e t ih =>
    intro s h1 h2
    rw [List.foldl_cons, safeEnqueue_open s e h1 h2,
      ih { s with events := s.events ++ [e] } h1 h2]
    simp

/-- The flag follows the stream: when the stream is open so is the
flag (from the invariant's first component). -/
theorem flag_open_of_stream_open (s : SupState)
    (h1 : s.controllerClosed = true → s.streamClosed = true)
    (hc : s.streamClosed = false) : s.controllerClosed = false := by
  cases hcc : s.controllerClosed
  · rfl
  · rw [h1 hcc] at hc
    exact absurd hc (by simp)

/-- Appending non-terminal events to an open state preserves the
invariant. -/
theorem supInv_append_nonterm (s : SupState) (l : List ProgressUpdate)
    (h : SupInv s) (hc : s.streamClosed = false)
    (hl : ∀ e ∈ l, isTerminal e = false) :
    SupInv { s with events := s.events ++ l } := by
  obtain ⟨h1, h2, h3⟩ := h
  refine ⟨fun hcc => h1 hcc, ?_, ?_⟩
  · intro _ e he
    rcases List.mem_append.mp he with he | he
    · exact h2 hc e he
    · exact hl e he
  · intro e he
    have : e ∈ s.events ++ l := mem_of_mem_dropLast he
    rcases List.mem_append.mp this with he2 | he2
    · exact h2 hc e he2
    · exact hl e he2

/-- A state that closed the stream right after appending one (possibly
terminal) event to an open state satisfies the invariant. -/
theorem supInv_append_close_any (s s2 : SupState) (ev : ProgressUpdate) (h : SupInv s)
    (hc : s.streamClosed = false) (he : s2.events = s.events ++ [ev])
    (hs2 : s2.streamClosed = true) : SupInv s2 := by
  obtain ⟨h1, h2, h3⟩ := h
  refine ⟨fun _ => hs2, fun hfal => by rw [hfal] at hs2; simp at hs2, ?_⟩
  intro e hmem
  rw [he, List.dropLast_concat] at hmem
  exact h2 hc e hmem

/-- A state with closed stream and the events of an already-closed
invariant state satisfies the invariant. -/
theorem supInv_closed_any (s s2 : SupState) (h : SupInv s) (_hc : s.streamClosed = true)
    (he : s2.events = s.events) (hs2 : s2.streamClosed = true) : SupInv s2 := by
  obtain ⟨h1, h2, h3⟩ := h
  refine ⟨fun _ => hs2, fun hfal => by rw [hfal] at hs2; simp at hs2, ?_⟩
  intro e hmem
  rw [he] at hmem
  exact h3 e hmem

/-- Enqueue one (possibly terminal) event and close: the shape of every
branch of `handleProgressComplete` (followed by the flag set).  It
preserves the invariant whatever the event. -/
theorem close_like_inv (s : SupState) (ev : ProgressUpdate) (b : Bool) (h : SupInv s) :
    SupInv { closeController (safeEnqueue s ev) with controllerClosed := b } := by
  cases hc : s.streamClosed
  · have hflag := flag_open_of_stream_open s h.1 hc
    rw [safeEnqueue_open s ev hc hflag]
    exact supInv_append_close_any s _ ev h hc rfl rfl
  · exact supInv_closed_any s _ h hc (safeEnqueue_closed_events s ev hc).1 rfl

/-- One observation step preserves the supervisor invariant. -/
theorem stepObs_inv (fe : Bool) (fs : Nat) (url q : String) (a : Bool)
    (s : SupState) (o : Obs) (h : SupInv s) : SupInv (stepObs fe fs url q a s o) := by
  cases o with
  | stdout chunk =>
    show SupInv ((parseProgressOutput chunk).foldl safeEnqueue s)
    cases hc : s.streamClosed
    · have hflag := flag_open_of_stream_open s h.1 hc
      rw [foldl_safeEnqueue_open _ s hc hflag]
      exact supInv_append_nonterm s _ h hc (parseProgressOutput_nonterminal chunk)
    · have hf := foldl_safeEnqueue_closed (parseProgressOutput chunk) s hc
      exact supInv_closed_any s _ h hc hf.1 hf.2
  | stderr chunk =>
    show SupInv (if fatalSignature chunk then
        safeEnqueue s { type := .error, message := "Download error: " ++ take100 chunk } else s)
    by_cases hfs : fatalSignature chunk = true
    · rw [if_pos hfs]
      cases hc : s.streamClosed
      · have hflag := flag_open_of_stream_open s h.1 hc
        rw [safeEnqueue_open s _ hc hflag]
        refine supInv_append_nonterm s _ h hc ?_
        intro e he
        rw [List.mem_singleton] at he
        subst he
        exact stderr_event_nonterminal (take100 chunk)
      · have hf := safeEnqueue_closed_events s
          { type := .error, message := "Download error: " ++ take100 chunk } hc
        exact supInv_closed_any s _ h hc hf.1 hf.2
    · rw [if_neg hfs]
      exact h
  | procError msg =>
    cases hflag : s.controllerClosed
    · cases hc : s.streamClosed
      · show SupInv (
          let s1 := safeEnqueue s { type := .error, message := "Process failed: " ++ msg }
          if s1.controllerClosed then s1
          else { s1 with streamClosed := true, controllerClosed := true })
        rw [show safeEnqueue s { type := .error, message := "Process failed: " ++ msg } =
            { s with events := s.events ++
              [{ type := .error, message := "Process failed: " ++ msg }] } from
            safeEnqueue_open s _ hc hflag]
        simp only [hflag, Bool.false_eq_true, if_false]
        exact supInv_append_close_any s _ _ h hc rfl rfl
      · show SupInv (
          let s1 := safeEnqueue s { type := .error, message := "Process failed: " ++ msg }
          if s1.controllerClosed then s1
          else { s1 with streamClosed := true, controllerClosed := true })
        rw [show safeEnqueue s { type := .error, message := "Process failed: " ++ msg } =
            { s with controllerClosed := true } by simp [safeEnqueue, hflag, hc]]
        simp only [if_true]
        exact supInv_closed_any s _ h hc rfl hc
    · show SupInv (
        let s1 := safeEnqueue s { type := .error, message := "Process failed: " ++ msg }
        if s1.controllerClosed then s1
        else { s1 with streamClosed := true, controllerClosed := true })
      rw [show safeEnqueue s { type := .error, message := "Process failed: " ++ msg } = s by
          simp [safeEnqueue, hflag]]
      simp only [hflag, if_true]
      exact h
  | close code =>
    show SupInv { handleProgressComplete code fe fs url q a s with controllerClosed := true }
    unfold handleProgressComplete
    by_cases hcode : code = some 0
    · rw [if_pos hcode]
      cases fe with
      | false =>
        simp only [Bool.false_eq_true, if_false]
        exact close_like_inv s _ true h
      | true =>
        simp only [if_true]
        exact close_like_inv s _ true h
    · rw [if_neg hcode]
      exact close_like_inv s _ true h

/-- The invariant holds after any run of the progressive handler. -/
theorem runProgressive_inv (url q : String) (a fe : Bool) (fs : Nat) (obs : List Obs) :
    SupInv (runProgressive url q a fe fs obs) := by
  have hfold : ∀ (l : List Obs) (s : SupState), SupInv s →
      SupInv (l.foldl (stepObs fe fs url q a) s) := by
    intro l
    induction l with
    | nil => intro s hs; exact hs
    | cons o t ih =>
      intro s hs
      rw [List.foldl_cons]
      exact ih _ (stepObs_inv fe fs url q a s o hs)
  unfold runProgressive
  apply hfold
  have hinit : safeEnqueue { events := [], controllerClosed := false, streamClosed := false }
      { type := EType.start, progress := some 0,
        message := "Starting download with enhanced anti-detection..." } =
      { events := [{ type := EType.start, progress := some 0,
                     message := "Starting download with enhanced anti-detection..." }],
        controllerClosed := false, streamClosed := false } := rfl
  rw [hinit]
  refine ⟨fun hcc => by simp at hcc, ?_, ?_⟩
  · intro _ e he
    simp only [List.mem_singleton] at he
    subst he
    exact nonerror_nonterminal _ (Or.inr (Or.inr rfl))
  · intro e he
    simp at he

/-- Claim C3: in the event stream of a progressive request, nothing is
emitted after a terminal event — any `complete` event, and any of the
final unrecoverable `error` events (exit-code failure, missing-file
failure, process failure), is the last event of the stream. -/
theorem c3_nothing_after_terminal (r : DownloadRequest) (fileExists : Bool) (fileSize : Nat)
    (obs : List Obs) (pre : List ProgressUpdate) (e : ProgressUpdate)
    (post : List ProgressUpdate)
    (hsplit : createProgressiveDownloadStream r fileExists fileSize obs = pre ++ e :: post)
    (hterm : isTerminal e = true) : post = [] := by
  by_contra hne
  have hmem : e ∈ (createProgressiveDownloadStream r fileExists fileSize obs).dropLast := by
    rw [hsplit]
    exact mem_dropLast_of_not_last pre e post hne
  have hinv := runProgressive_inv r.url (r.quality.getD "720") (r.audioOnly.getD false)
    fileExists fileSize obs
  have hfalse := hinv.2.2 e hmem
  rw [hterm] at hfalse
  exact absurd hfalse (by simp)

/-- Witness for C3: a run that exits 0 with the file present ends in
the `complete` event, with nothing after it. -/
theorem c3_nothing_after_terminal_witness : ([] : List ProgressUpdate) = [] :=
  c3_nothing_after_terminal { url := "u", quality := none, audioOnly := none } true 7
    [Obs.close (some 0)]
    [{ type := EType.start, progress := some 0,
       message := "Starting download with enhanced anti-detection..." }]
    { type := EType.complete, progress := some 100, fileSize := some 7,
      downloadUrl := some "/api/youtube-download?url=u&quality=720&audioOnly=false",
      message := "Download completed!" }
    []
    (by decide) (by decide)

/-- Claim C1, evaluated at the claim's own scenario: a progressive
request whose process fails on the primary strategy (fatal stderr
signature, then non-zero exit).  The stream never retries — the
multi-strategy routine `attemptProgressiveDownload` has no caller — so
the emitted sequence is `start`, the stderr `error`, and the terminal
exit-code `error`: it contains no `info` retry event and no `complete`
event, contradicting the claimed two-`info`-then-`complete` sequence
(the stipulated android/ios outcomes are never exercised). -/
theorem c1_no_retry_failing_trace :
    createProgressiveDownloadStream { url := "https://youtu.be/x", quality := none, audioOnly := none }
        false 0
        [Obs.stderr "ERROR: Sign in to confirm you are not a bot", Obs.close (some 1)] =
      [{ type := EType.start, progress := some 0,
         message := "Starting download with enhanced anti-detection..." },
       { type := EType.error,
         message := "Download error: ERROR: Sign in to confirm you are not a bot" },
       { type := EType.error, message := "Download failed with exit code 1" }] ∧
    ((createProgressiveDownloadStream
        { url := "https://youtu.be/x", quality := none, audioOnly := none } false 0
        [Obs.stderr "ERROR: Sign in to confirm you are not a bot",
         Obs.close (some 1)]).countP (fun e => e.type == EType.info) = 0 ∧
     (createProgressiveDownloadStream
        { url := "https://youtu.be/x", quality := none, audioOnly := none } false 0
        [Obs.stderr "ERROR: Sign in to confirm you are not a bot",
         Obs.close (some 1)]).countP (fun e => e.type == EType.complete) = 0) := by
  refine ⟨by decide, by decide, by decide⟩
